import Mathlib

/-!
Shallow embedding of the step-tracking & power-accrual subsystem of the
`test-pokemon` repository.

Source files embedded:
* `src/utils/powerCalculation.ts` — `calculatePowerLevelFromSteps`.
* `src/hooks/useStepTracking.ts` — the `useStepTracking` hook: permission
  handling, the tracking state machine, push subscription and poll callbacks.
* `src/services/storage.ts` — `StorageService`: the two persisted key-value
  namespaces (power levels and step progress).
* `src/hooks/usePokemonPower.ts` — the derived power values and `refreshPower`.

Asynchronous JS functions are embedded as atomic state transformers whose
awaited results are explicit parameters (an `Except` models a promise that may
reject); React `useState`/`useRef` cells become fields of an explicit state
record; sensor push callbacks and poll-timer firings become events applied to
the state, possible only while the corresponding subscription/timer is live.
-/

namespace PokemonSteps

/-! ## Power calculation (`src/utils/powerCalculation.ts`) -/

def STEPS_PER_POWER_LEVEL : Int := 100

/-- `calculatePowerLevelFromSteps(steps) = Math.floor(steps / STEPS_PER_POWER_LEVEL)`.
For an integer argument, `Math.floor` of the exact quotient is floor division. -/
def calculatePowerLevelFromSteps (steps : Int) : Int :=
  Int.fdiv steps STEPS_PER_POWER_LEVEL

/-! ## Permission handling (`src/hooks/useStepTracking.ts`) -/

/-- An `expo-modules-core` `PermissionResponse` as the hook reads it: each field
may be absent (`undefined` in JS). -/
structure PermissionResponse where
  granted : Option Bool
  status : Option String
  canAskAgain : Option Bool
deriving Repr, DecidableEq

/-- The hook's state: the `useState` cells and the `useRef` cells of
`useStepTracking`. `subscriptionRef`/`pollIntervalRef`/`startDateRef` record
whether the corresponding ref currently holds a live object. -/
structure StepTrackingState where
  rawSteps : Int
  isAvailable : Bool
  isTracking : Bool
  error : Option String
  hasPermission : Bool
  canAskAgain : Bool
  startDateRef : Bool
  subscriptionRef : Bool
  isInitializedRef : Bool
  pollIntervalRef : Bool
  baseline : Int
deriving Repr, DecidableEq

/-- `calculatedSteps = Math.max(rawSteps - baselineRef.current, 0)` (line 34). -/
def calculatedSteps (s : StepTrackingState) : Int :=
  max (s.rawSteps - s.baseline) 0

/-- `parsePermission` (lines 36–47): `undefined` response is treated as granted;
otherwise a boolean `granted` field decides, then a string `status` field,
and a response with neither is treated as granted. -/
def parsePermission : Option PermissionResponse → Bool
  | none => true
  | some response =>
    match response.granted with
    | some g => g
    | none =>
      match response.status with
      | some st => st == "granted"
      | none => true

/-- JS `error.toLowerCase().includes('permission')`. -/
def mentionsPermission (e : String) : Bool :=
  decide (2 ≤ (e.toLower.splitOn "permission").length)

/-- `updatePermissionState` (lines 49–67): records the parsed grant, adopts a
boolean `canAskAgain` when present, sets a denial message on failure
(distinguishing permanent denial) and clears a stale permission error on
success; returns the grant. -/
def updatePermissionState (s : StepTrackingState)
    (response : Option PermissionResponse) : StepTrackingState × Bool :=
  let granted := parsePermission response
  let s1 := { s with hasPermission := granted }
  let s2 :=
    match response with
    | some r =>
      match r.canAskAgain with
      | some b => { s1 with canAskAgain := b }
      | none => s1
    | none => s1
  let s3 :=
    if granted = false then
      match response with
      | some r =>
        if r.canAskAgain = some false then
          { s2 with error := some "Permission denied. Please enable Motion & Fitness in Settings." }
        else
          { s2 with error := some "Pedometer permission not granted" }
      | none => { s2 with error := some "Pedometer permission not granted" }
    else
      match s2.error with
      | some e => if mentionsPermission e then { s2 with error := none } else s2
      | none => s2
  (s3, granted)

/-- `requestPermission` (lines 91–119). `hasApi` is whether
`Pedometer.requestPermissionsAsync` is a function; `osResponse` is the awaited
promise (`.error` = the promise rejected). The rejection is caught: it sets an
error message and `hasPermission := false` and returns `false`. The alert shown
on permanent denial is UI-only and leaves the hook state unchanged. -/
def requestPermission (s : StepTrackingState) (hasApi : Bool)
    (osResponse : Except String PermissionResponse) : StepTrackingState × Bool :=
  if hasApi then
    match osResponse with
    | .ok response => updatePermissionState s (some response)
    | .error _ =>
      ({ s with error := some "Unable to request pedometer permission",
                hasPermission := false }, false)
  else
    ({ s with hasPermission := true }, true)

/-- `checkPermissionStatus` (lines 121–140). `hasGetApi` is whether
`Pedometer.getPermissionsAsync` is a function; `getResponse` the awaited query.
A rejected query is caught and treated as granted (`hasPermission := true`,
`canAskAgain := true`, returns `true`); a denied-but-askable query falls
through to `requestPermission` (whose own awaited outcome is
`requestHasApi`/`requestResponse`). -/
def checkPermissionStatus (s : StepTrackingState) (hasGetApi : Bool)
    (getResponse : Except String PermissionResponse)
    (requestHasApi : Bool) (requestResponse : Except String PermissionResponse) :
    StepTrackingState × Bool :=
  if hasGetApi then
    match getResponse with
    | .ok response =>
      let (s1, granted) := updatePermissionState s (some response)
      if granted = false && response.canAskAgain == some true then
        requestPermission s1 requestHasApi requestResponse
      else
        (s1, granted)
    | .error _ =>
      ({ s with hasPermission := true, canAskAgain := true }, true)
  else
    ({ s with hasPermission := true, canAskAgain := true }, true)

/-! ## The tracking state machine (`src/hooks/useStepTracking.ts`) -/

/-- The values awaited inside one run of `startTracking`:
`availResult` is the `Pedometer.isAvailableAsync()` promise (`.error` = it
rejected and the surrounding `catch` runs), and `requestHasApi` /
`requestResponse` feed the `requestPermission()` call made when permission is
not yet granted. -/
structure StartArgs where
  availResult : Except String Bool
  requestHasApi : Bool
  requestResponse : Except String PermissionResponse
deriving Repr

/-- `startTracking` (lines 169–235) as one atomic step. Already-started guard
(lines 170–173) returns the state unchanged. Otherwise: availability is
re-queried (a rejection is caught: error recorded, `isAvailable := false`,
`isTracking := false`); an unavailable pedometer records an error and aborts;
missing permission triggers `requestPermission` and a refusal records an error
and aborts; on success the watcher is subscribed, the poll interval installed,
`startDateRef` anchored, `isInitializedRef` set, the baseline and raw steps
reset to 0, `isTracking` set and the error cleared. -/
def startTracking (s : StepTrackingState) (a : StartArgs) : StepTrackingState :=
  if s.isInitializedRef then s
  else
    match a.availResult with
    | .error msg =>
      { s with error := some msg, isAvailable := false, isTracking := false }
    | .ok available =>
      let s1 := { s with isAvailable := available }
      if available = false then
        { s1 with error := some "Pedometer is not available on this device" }
      else
        let step2 :=
          if s1.hasPermission then (s1, true)
          else requestPermission s1 a.requestHasApi a.requestResponse
        if step2.2 = false then
          { step2.1 with error := some "Pedometer permission not granted" }
        else
          { step2.1 with
            startDateRef := true
            subscriptionRef := true
            pollIntervalRef := true
            isInitializedRef := true
            baseline := 0
            rawSteps := 0
            isTracking := true
            error := none }

/-- `stopTracking` (lines 237–259): no-op unless initialized; otherwise removes
the subscription, clears the poll interval, and resets the initialized and
tracking flags. -/
def stopTracking (s : StepTrackingState) : StepTrackingState :=
  if s.isInitializedRef = false then s
  else
    { s with
      subscriptionRef := false
      pollIntervalRef := false
      isInitializedRef := false
      isTracking := false }

/-- `resetSteps` (lines 276–278): snapshots the current raw count as the new
baseline. -/
def resetSteps (s : StepTrackingState) : StepTrackingState :=
  { s with baseline := s.rawSteps }

/-- A sensor-side occurrence: a push delivery from the
`Pedometer.watchStepCount` subscription, or one firing of the 2000 ms poll
interval whose `Pedometer.getStepCountAsync` await resolved (`.ok`) or
rejected (`.error`). -/
inductive StepEvent where
  | push (steps : Int)
  | poll (result : Except String Int)
deriving Repr

/-- Effect of one event. A push callback (lines 200–203) fires only while the
subscription is live and overwrites `rawSteps` unconditionally. A poll firing
(lines 206–219) happens only while the interval is installed; its callback
checks `startDateRef`, ignores a rejected query (the `catch` only logs) and
ignores a non-positive result (`if (result.steps > 0)`); a positive result
overwrites `rawSteps`. -/
def applyEvent (s : StepTrackingState) (e : StepEvent) : StepTrackingState :=
  match e with
  | .push steps =>
    if s.subscriptionRef then { s with rawSteps := steps } else s
  | .poll result =>
    if s.pollIntervalRef then
      if s.startDateRef then
        match result with
        | .ok steps => if 0 < steps then { s with rawSteps := steps } else s
        | .error _ => s
      else s
    else s

/-- A sequence of sensor-side events, applied in arrival order. -/
def applyEvents (s : StepTrackingState) (es : List StepEvent) : StepTrackingState :=
  es.foldl applyEvent s

/-! ## Persistent storage (`src/services/storage.ts`) -/

/-- A persisted namespace: the JS object parsed from stored JSON, as a sparse
mapping from pokemon id to integer value. -/
abbrev PokemonValueMap := Nat → Option Int

def emptyMap : PokemonValueMap := fun _ => none

/-- JS `m[pokemonId] || 0` for an integer-valued map: `undefined` and `0` are
falsy, any other integer is returned as is. -/
def jsOrZero : Option Int → Int
  | none => 0
  | some v => if v = 0 then 0 else v

/-- The outcome of reading one namespace from `AsyncStorage`:
`.error` = `getItem` (or `JSON.parse`) threw, `.ok none` = no stored data,
`.ok (some m)` = the parsed mapping. -/
abbrev StorageRead := Except String (Option PokemonValueMap)

/-- `getPowerLevels` (lines 12–20): `data ? JSON.parse(data) : {}`, with a
`catch` that degrades any read failure to the empty mapping. -/
def getPowerLevels (raw : StorageRead) : PokemonValueMap :=
  match raw with
  | .ok (some m) => m
  | .ok none => fun _ => none
  | .error _ => fun _ => none

/-- `getPowerLevel` (lines 32–35): `powerLevels[pokemonId] || 0`. -/
def getPowerLevel (raw : StorageRead) (pokemonId : Nat) : Int :=
  jsOrZero (getPowerLevels raw pokemonId)

/-- `savePowerLevel` (lines 22–30): `powerLevels[pokemonId] = powerLevel`, then
the whole mapping is written back; no key is ever removed. -/
def savePowerLevel (m : PokemonValueMap) (pokemonId : Nat) (powerLevel : Int) :
    PokemonValueMap :=
  fun k => if k = pokemonId then some powerLevel else m k

/-- `getStepProgressMap` (lines 37–45): same read-with-degrade as
`getPowerLevels`, on the step-progress namespace. -/
def getStepProgressMap (raw : StorageRead) : PokemonValueMap :=
  match raw with
  | .ok (some m) => m
  | .ok none => fun _ => none
  | .error _ => fun _ => none

/-- `getStepProgress` (lines 47–50): `progress[pokemonId] || 0`. -/
def getStepProgress (raw : StorageRead) (pokemonId : Nat) : Int :=
  jsOrZero (getStepProgressMap raw pokemonId)

/-- `saveStepProgress` (lines 52–64): a value `<= 0` deletes the entity's key,
any other value is stored under it. -/
def saveStepProgress (m : PokemonValueMap) (pokemonId : Nat) (steps : Int) :
    PokemonValueMap :=
  if steps ≤ 0 then fun k => if k = pokemonId then none else m k
  else fun k => if k = pokemonId then some steps else m k

/-! ## Power accrual (`src/hooks/usePokemonPower.ts`) -/

/-- `totalSteps = storedSteps + steps` (line 137). -/
def totalSteps (storedSteps liveSteps : Int) : Int :=
  storedSteps + liveSteps

/-- `stepsFromPower = calculatePowerLevelFromSteps(totalSteps)` (line 138). -/
def stepsFromPower (storedSteps liveSteps : Int) : Int :=
  calculatePowerLevelFromSteps (totalSteps storedSteps liveSteps)

/-- `totalPowerLevel = basePowerLevel + stepsFromPower` (line 139). -/
def totalPowerLevel (basePowerLevel storedSteps liveSteps : Int) : Int :=
  basePowerLevel + stepsFromPower storedSteps liveSteps

/-- The two persisted namespaces together. -/
structure Stores where
  powerLevels : PokemonValueMap
  stepProgress : PokemonValueMap

/-- `loadPowerLevel` (lines 81–99) reduced to its data: the two storage reads,
each already degraded to a defaulted integer by the `StorageService` getters
(which never throw, so the surrounding `catch` is dead on the read path). -/
def loadPowerLevel (powerRaw stepRaw : StorageRead) (pokemonId : Nat) : Int × Int :=
  (getPowerLevel powerRaw pokemonId, getStepProgress stepRaw pokemonId)

/-- The write-through accrual effect (lines 141–144): on every change of
`totalSteps`, `saveStepProgress(pokemon.id, totalSteps)` — only the
step-progress namespace is written. -/
def accrualWrite (st : Stores) (pokemonId : Nat) (storedSteps liveSteps : Int) :
    Stores :=
  { st with
    stepProgress :=
      saveStepProgress st.stepProgress pokemonId (totalSteps storedSteps liveSteps) }

/-- `refreshPower` (lines 146–151), the explicit save: persists
`totalPowerLevel` into the power-level namespace and `totalSteps` into the
step-progress namespace. -/
def refreshPower (st : Stores) (pokemonId : Nat)
    (basePowerLevel storedSteps liveSteps : Int) : Stores :=
  { powerLevels :=
      savePowerLevel st.powerLevels pokemonId
        (totalPowerLevel basePowerLevel storedSteps liveSteps)
    stepProgress :=
      saveStepProgress st.stepProgress pokemonId
        (totalSteps storedSteps liveSteps) }

/-! ## Auxiliary definitions for the statements -/

/-- The hypothesis under which the dual-channel update is monotone: starting
from the current `rawSteps`, every accepted write (any push, and any strictly
positive poll result; rejected and non-positive polls are skipped) is at least
the previous accepted value. This holds in particular when both channels report
the same monotonically increasing ground-truth counter. -/
def eventsMonotoneFrom (cur : Int) : List StepEvent → Bool
  | [] => true
  | .push v :: rest => decide (cur ≤ v) && eventsMonotoneFrom v rest
  | .poll (.ok v) :: rest =>
    if 0 < v then decide (cur ≤ v) && eventsMonotoneFrom v rest
    else eventsMonotoneFrom cur rest
  | .poll (.error _) :: rest => eventsMonotoneFrom cur rest

/-- A state in the middle of a Tracking period (both channels live). -/
def sampleTrackingState : StepTrackingState :=
  { rawSteps := 0, isAvailable := true, isTracking := true, error := none,
    hasPermission := true, canAskAgain := true, startDateRef := true,
    subscriptionRef := true, isInitializedRef := true, pollIntervalRef := true,
    baseline := 0 }

/-- An idle state before any tracking was started. -/
def sampleIdleState : StepTrackingState :=
  { rawSteps := 0, isAvailable := true, isTracking := false, error := none,
    hasPermission := false, canAskAgain := true, startDateRef := false,
    subscriptionRef := false, isInitializedRef := false, pollIntervalRef := false,
    baseline := 0 }

/-- A step-progress mapping holding a single entry `2 ↦ 7`. -/
def sampleMap : PokemonValueMap :=
  fun k => if k = 2 then some 7 else none

/-! ## Theorems -/

/-- C2: for every integer `steps ≥ 0`, `calculatePowerLevelFromSteps steps` is
the integer-division floor `steps / 100` (equivalently, the natural-number
division of `steps.toNat` by 100), with no rounding and no upper bound; and it
maps 0, 1, 99, 100, 199, 200, 500, 1000, 10000 to
0, 0, 0, 1, 1, 2, 5, 10, 100. -/
theorem C2_power_formula :
    (∀ steps : Int, 0 ≤ steps →
      calculatePowerLevelFromSteps steps = steps / 100 ∧
      calculatePowerLevelFromSteps steps = ((steps.toNat / 100 : Nat) : Int)) ∧
    calculatePowerLevelFromSteps 0 = 0 ∧ calculatePowerLevelFromSteps 1 = 0 ∧
    calculatePowerLevelFromSteps 99 = 0 ∧ calculatePowerLevelFromSteps 100 = 1 ∧
    calculatePowerLevelFromSteps 199 = 1 ∧ calculatePowerLevelFromSteps 200 = 2 ∧
    calculatePowerLevelFromSteps 500 = 5 ∧ calculatePowerLevelFromSteps 1000 = 10 ∧
    calculatePowerLevelFromSteps 10000 = 100 := by
  constructor
  · intro steps hs
    have hfd : calculatePowerLevelFromSteps steps = steps / 100 := by
      unfold calculatePowerLevelFromSteps STEPS_PER_POWER_LEVEL
      exact Int.fdiv_eq_ediv steps (by decide)
    refine ⟨hfd, ?_⟩
    rw [hfd]
    omega
  · decide

/-- C2 witness: the quantified part of `C2_power_formula` instantiated at 250. -/
theorem C2_power_formula_witness :
    (0 : Int) ≤ 250 ∧ calculatePowerLevelFromSteps 250 = 250 / 100 :=
  ⟨by decide, (C2_power_formula.1 250 (by decide)).1⟩

/-- C5: for every state, `calculatedSteps` is exactly
`max (rawSteps - baseline) 0`, hence never negative — in particular after a
poll that delivers any value, even one below the baseline. -/
theorem C5_effective_steps_clamped (s : StepTrackingState) :
    calculatedSteps s = max (s.rawSteps - s.baseline) 0 ∧
    0 ≤ calculatedSteps s ∧
    ∀ v : Int, 0 ≤ calculatedSteps (applyEvent s (StepEvent.poll (Except.ok v))) :=
  ⟨rfl, le_max_right _ _, fun _ => le_max_right _ _⟩

/-- C1: with `storedSteps = 50`, `storedPowerLevel = 2` and live
`effectiveSteps = 60`: `totalSteps = 110`, `powerFromSteps = 1`,
`totalPowerLevel = 3`; after `refreshPower` (the `save()` operation) the
persisted power level is 3 and the persisted step progress is 110; and the
continuous accrual write never touches the power-level namespace, so the save
is the only modelled operation that advances the banked power level. -/
theorem C1_end_to_end_save :
    totalSteps 50 60 = 110 ∧
    stepsFromPower 50 60 = 1 ∧
    totalPowerLevel 2 50 60 = 3 ∧
    (∀ (st : Stores) (pokemonId : Nat),
      (refreshPower st pokemonId 2 50 60).powerLevels pokemonId = some 3 ∧
      (refreshPower st pokemonId 2 50 60).stepProgress pokemonId = some 110) ∧
    (∀ (st : Stores) (pokemonId : Nat) (storedSteps liveSteps : Int),
      (accrualWrite st pokemonId storedSteps liveSteps).powerLevels =
        st.powerLevels) := by
  have hts : totalSteps 50 60 = 110 := by decide
  have htp : totalPowerLevel 2 50 60 = 3 := by decide
  refine ⟨hts, by decide, htp, fun st pokemonId => ⟨?_, ?_⟩, fun st p a b => rfl⟩
  · simp [refreshPower, savePowerLevel, htp]
  · simp [refreshPower, saveStepProgress, hts]

/-- C9: a failed read of either namespace (`.error`), an empty store
(`.ok none`), or an absent key all yield 0 for both `storedSteps` and
`storedPowerLevel`; the load path is a total function, so no error reaches the
caller. -/
theorem C9_read_failure_defaults (e : String) (pokemonId : Nat)
    (m : PokemonValueMap) :
    getPowerLevel (Except.error e) pokemonId = 0 ∧
    getStepProgress (Except.error e) pokemonId = 0 ∧
    getPowerLevel (Except.ok none) pokemonId = 0 ∧
    getStepProgress (Except.ok none) pokemonId = 0 ∧
    (m pokemonId = none → getPowerLevel (Except.ok (some m)) pokemonId = 0) ∧
    (m pokemonId = none → getStepProgress (Except.ok (some m)) pokemonId = 0) ∧
    loadPowerLevel (Except.error e) (Except.error e) pokemonId = (0, 0) := by
  refine ⟨rfl, rfl, rfl, rfl, fun h => ?_, fun h => ?_, rfl⟩
  · simp [getPowerLevel, getPowerLevels, jsOrZero, h]
  · simp [getStepProgress, getStepProgressMap, jsOrZero, h]

/-- C9 witness: `C9_read_failure_defaults` at entity 3 with the empty mapping. -/
theorem C9_read_failure_defaults_witness :
    getPowerLevel (Except.error "read failed") 3 = 0 ∧
    getPowerLevel (Except.ok (some emptyMap)) 3 = 0 :=
  ⟨(C9_read_failure_defaults "read failed" 3 emptyMap).1,
   (C9_read_failure_defaults "read failed" 3 emptyMap).2.2.2.2.1 rfl⟩

/-- C10 (implicit): the power-level namespace is not sparse: saving a power
level — 0 included — stores an explicit entry under the entity's key, leaves
every other key untouched, and never removes a key. -/
theorem C10_power_store_not_sparse (m : PokemonValueMap) (pokemonId : Nat)
    (v : Int) :
    savePowerLevel m pokemonId 0 pokemonId = some 0 ∧
    savePowerLevel m pokemonId v pokemonId = some v ∧
    (∀ k, k ≠ pokemonId → savePowerLevel m pokemonId v k = m k) ∧
    (∀ k, m k ≠ none → savePowerLevel m pokemonId v k ≠ none) := by
  refine ⟨by simp [savePowerLevel], by simp [savePowerLevel],
    fun k hk => by simp [savePowerLevel, hk], fun k hk => ?_⟩
  unfold savePowerLevel
  by_cases h : k = pokemonId
  · simp [h]
  · simpa [h] using hk

/-- C10 witness: `C10_power_store_not_sparse` at the one-entry mapping
`sampleMap`, entity 5, value 0, checking the untouched key 2. -/
theorem C10_power_store_not_sparse_witness :
    savePowerLevel sampleMap 5 0 5 = some 0 ∧
    savePowerLevel sampleMap 5 0 2 = sampleMap 2 ∧
    savePowerLevel sampleMap 5 0 2 ≠ none :=
  ⟨(C10_power_store_not_sparse sampleMap 5 0).1,
   (C10_power_store_not_sparse sampleMap 5 0).2.2.1 2 (by decide),
   (C10_power_store_not_sparse sampleMap 5 0).2.2.2 2 (by simp [sampleMap])⟩

/-- C8: `saveStepProgress` keeps the step-progress namespace sparse: a write of
a value `≤ 0` removes the entity's key; if no stored entry was `≤ 0` before a
write, none is after; and both the save operation (`refreshPower`) and the
continuous accrual write remove the key whenever `totalSteps ≤ 0`. -/
theorem C8_sparse_step_store (m : PokemonValueMap) (pokemonId : Nat)
    (steps : Int) (hpos : ∀ k v, m k = some v → 0 < v) :
    (∀ k v, saveStepProgress m pokemonId steps k = some v → 0 < v) ∧
    (steps ≤ 0 → saveStepProgress m pokemonId steps pokemonId = none) ∧
    (∀ (st : Stores) (basePowerLevel storedSteps liveSteps : Int),
      totalSteps storedSteps liveSteps ≤ 0 →
      (refreshPower st pokemonId basePowerLevel storedSteps
          liveSteps).stepProgress pokemonId = none ∧
      (accrualWrite st pokemonId storedSteps liveSteps).stepProgress
          pokemonId = none) := by
  refine ⟨fun k v hk => ?_, fun h => by simp [saveStepProgress, h],
    fun st b ss ls h => ⟨?_, ?_⟩⟩
  · unfold saveStepProgress at hk
    by_cases h : steps ≤ 0
    · rw [if_pos h] at hk
      by_cases hkp : k = pokemonId
      · simp [hkp] at hk
      · rw [if_neg hkp] at hk
        exact hpos k v hk
    · rw [if_neg h] at hk
      by_cases hkp : k = pokemonId
      · rw [if_pos hkp] at hk
        injection hk with hk
        omega
      · rw [if_neg hkp] at hk
        exact hpos k v hk
  · simp [refreshPower, saveStepProgress, h]
  · simp [accrualWrite, saveStepProgress, h]

/-- C8 witness: `C8_sparse_step_store` at the empty mapping, entity 7,
value 0. -/
theorem C8_sparse_step_store_witness :
    (∀ k v, emptyMap k = some v → 0 < v) ∧
    saveStepProgress emptyMap 7 0 7 = none :=
  ⟨fun k v h => by simp [emptyMap] at h,
   (C8_sparse_step_store emptyMap 7 0
     (fun k v h => by simp [emptyMap] at h)).2.1 (by decide)⟩

/-- C6: a re-entrant `startTracking` while already started (the
`isInitializedRef` guard, i.e. the Starting/Tracking phase of the atomic-step
model) returns the state unchanged: no second subscription, no second poll
timer, no state change, whatever the awaited results would have been. -/
theorem C6_startTracking_reentrant_noop (s : StepTrackingState) (a : StartArgs)
    (h : s.isInitializedRef = true) : startTracking s a = s := by
  simp [startTracking, h]

/-- C6 witness: `C6_startTracking_reentrant_noop` at a live tracking state. -/
theorem C6_startTracking_reentrant_noop_witness :
    startTracking sampleTrackingState
      ⟨Except.ok true, true, Except.ok ⟨some true, none, some true⟩⟩ =
      sampleTrackingState :=
  C6_startTracking_reentrant_noop sampleTrackingState
    ⟨Except.ok true, true, Except.ok ⟨some true, none, some true⟩⟩ rfl

/-- C4 counterexample: a rejected `Pedometer.requestPermissionsAsync` call is
not treated as granted — `requestPermission` catches the error but records
`hasPermission = false` and returns `false`, refuting the claim that every
thrown error from the permission query or request leaves the permission
granted. -/
theorem C4_counterexample :
    (requestPermission sampleIdleState true
        (Except.error "permission bridge failure")).1.hasPermission = false ∧
    (requestPermission sampleIdleState true
        (Except.error "permission bridge failure")).2 = false := by
  decide

/-- C4 (amended): errors are caught on both permission paths, but only the
status query fails open: a rejected `getPermissionsAsync` inside
`checkPermissionStatus` yields `hasPermission = true`, `canAskAgain = true` and
result `true`, while a rejected `requestPermissionsAsync` inside
`requestPermission` yields `hasPermission = false`, result `false` and a
recorded error message. -/
theorem C4_permission_error_policy (s : StepTrackingState) (e : String)
    (requestHasApi : Bool) (requestResponse : Except String PermissionResponse) :
    (checkPermissionStatus s true (Except.error e) requestHasApi
        requestResponse).1.hasPermission = true ∧
    (checkPermissionStatus s true (Except.error e) requestHasApi
        requestResponse).1.canAskAgain = true ∧
    (checkPermissionStatus s true (Except.error e) requestHasApi
        requestResponse).2 = true ∧
    (requestPermission s true (Except.error e)).1.hasPermission = false ∧
    (requestPermission s true (Except.error e)).2 = false ∧
    (requestPermission s true (Except.error e)).1.error =
      some "Unable to request pedometer permission" := by
  refine ⟨?_, ?_, ?_, ?_, ?_, ?_⟩ <;>
    simp [checkPermissionStatus, requestPermission]

/-- A push or poll event leaves a state with no live subscription and no live
poll interval unchanged. -/
theorem applyEvent_released (t : StepTrackingState)
    (h1 : t.subscriptionRef = false) (h2 : t.pollIntervalRef = false)
    (e : StepEvent) : applyEvent t e = t := by
  cases e with
  | push v => simp [applyEvent, h1]
  | poll r => simp [applyEvent, h2]

/-- Any sequence of push/poll events leaves such a state unchanged. -/
theorem applyEvents_released (t : StepTrackingState)
    (h1 : t.subscriptionRef = false) (h2 : t.pollIntervalRef = false) :
    ∀ es : List StepEvent, applyEvents t es = t := by
  intro es
  induction es with
  | nil => rfl
  | cons e rest ih =>
    show applyEvents (applyEvent t e) rest = t
    rw [applyEvent_released t h1 h2 e]
    exact ih

/-- C7: after `stopTracking` both channels are released, so no later push or
poll event changes anything (in particular `rawSteps`); `stopTracking` on a
non-started state changes nothing; and `stopTracking` is idempotent. The first
part assumes the channel refs agree with the initialized flag, which holds in
every reachable state (`startTracking` sets all three, `stopTracking` clears
all three). -/
theorem C7_stopTracking_releases (s : StepTrackingState) :
    (∀ es : List StepEvent,
      s.subscriptionRef = s.isInitializedRef →
      s.pollIntervalRef = s.isInitializedRef →
      applyEvents (stopTracking s) es = stopTracking s) ∧
    (s.isInitializedRef = false → stopTracking s = s) ∧
    stopTracking (stopTracking s) = stopTracking s := by
  refine ⟨fun es h1 h2 => ?_, fun h => by simp [stopTracking, h], ?_⟩
  · by_cases h : s.isInitializedRef = false
    · have hs : stopTracking s = s := by simp [stopTracking, h]
      rw [hs]
      exact applyEvents_released s (h ▸ h1) (h ▸ h2) es
    · have hs : stopTracking s =
          { s with subscriptionRef := false, pollIntervalRef := false,
                   isInitializedRef := false, isTracking := false } := by
        simp [stopTracking, h]
      rw [hs]
      exact applyEvents_released _ rfl rfl es
  · by_cases h : s.isInitializedRef = false
    · simp [stopTracking, h]
    · simp [stopTracking, h]

/-- C7 witness: `C7_stopTracking_releases` at a live tracking state with a
subsequent push and poll, and at an idle state. -/
theorem C7_stopTracking_releases_witness :
    applyEvents (stopTracking sampleTrackingState)
      [StepEvent.push 5, StepEvent.poll (Except.ok 9)] =
      stopTracking sampleTrackingState ∧
    stopTracking sampleIdleState = sampleIdleState ∧
    stopTracking (stopTracking sampleTrackingState) =
      stopTracking sampleTrackingState :=
  ⟨(C7_stopTracking_releases sampleTrackingState).1
      [StepEvent.push 5, StepEvent.poll (Except.ok 9)] rfl rfl,
   (C7_stopTracking_releases sampleIdleState).2.1 rfl,
   (C7_stopTracking_releases sampleTrackingState).2.2⟩

/-- C3 counterexample: in a live Tracking period a push delivers 100, then a
poll delivers the strictly positive value 50; the poll overwrites `rawSteps`
last-write-wins and `effectiveSteps` strictly decreases from 100 to 50,
refuting monotonicity over every sequence of push updates and poll results. -/
theorem C3_counterexample :
    calculatedSteps (applyEvents sampleTrackingState [StepEvent.push 100]) =
      100 ∧
    calculatedSteps (applyEvents sampleTrackingState
      [StepEvent.push 100, StepEvent.poll (Except.ok 50)]) = 50 ∧
    calculatedSteps (applyEvents sampleTrackingState
        [StepEvent.push 100, StepEvent.poll (Except.ok 50)]) <
      calculatedSteps (applyEvents sampleTrackingState [StepEvent.push 100]) := by
  decide

/-- C3 (amended): within one Tracking period (both channels live), where a
non-positive poll result is ignored and any push or positive poll overwrites
`rawCounter` last-write-wins, `effectiveSteps` is monotonically non-decreasing
over every sequence whose accepted values are non-decreasing (as when both
channels report the same monotone ground truth) — but a positive poll below the
current counter may decrease it; push/poll events never change the baseline,
which changes only when a new Tracking period (or `resetSteps`) establishes a
new one. -/
theorem C3_effective_steps_monotone (s : StepTrackingState)
    (es : List StepEvent) (hs : s.subscriptionRef = true)
    (hp : s.pollIntervalRef = true) (hd : s.startDateRef = true)
    (hm : eventsMonotoneFrom s.rawSteps es = true) :
    calculatedSteps s ≤ calculatedSteps (applyEvents s es) ∧
    (applyEvents s es).baseline = s.baseline := by
  induction es generalizing s with
  | nil => exact ⟨le_refl _, rfl⟩
  | cons e rest ih =>
    cases e with
    | push v =>
      rw [eventsMonotoneFrom, Bool.and_eq_true, decide_eq_true_eq] at hm
      have happ : applyEvent s (StepEvent.push v) = { s with rawSteps := v } := by
        simp [applyEvent, hs]
      have hrec := ih { s with rawSteps := v } hs hp hd hm.2
      show calculatedSteps s ≤
          calculatedSteps (applyEvents (applyEvent s (StepEvent.push v)) rest) ∧
        (applyEvents (applyEvent s (StepEvent.push v)) rest).baseline = s.baseline
      rw [happ]
      refine ⟨le_trans ?_ hrec.1, hrec.2⟩
      exact max_le_max (by simp; omega) (le_refl 0)
    | poll r =>
      cases r with
      | ok v =>
        by_cases hv : 0 < v
        · rw [eventsMonotoneFrom] at hm
          rw [if_pos hv, Bool.and_eq_true, decide_eq_true_eq] at hm
          have happ : applyEvent s (StepEvent.poll (Except.ok v)) =
              { s with rawSteps := v } := by
            simp [applyEvent, hs, hp, hd, hv]
          have hrec := ih { s with rawSteps := v } hs hp hd hm.2
          show calculatedSteps s ≤
              calculatedSteps
                (applyEvents (applyEvent s (StepEvent.poll (Except.ok v))) rest) ∧
            (applyEvents (applyEvent s (StepEvent.poll (Except.ok v)))
                rest).baseline = s.baseline
          rw [happ]
          refine ⟨le_trans ?_ hrec.1, hrec.2⟩
          exact max_le_max (by simp; omega) (le_refl 0)
        · rw [eventsMonotoneFrom, if_neg hv] at hm
          have happ : applyEvent s (StepEvent.poll (Except.ok v)) = s := by
            simp [applyEvent, hs, hp, hd, hv]
          have hrec := ih s hs hp hd hm
          show calculatedSteps s ≤
              calculatedSteps
                (applyEvents (applyEvent s (StepEvent.poll (Except.ok v))) rest) ∧
            (applyEvents (applyEvent s (StepEvent.poll (Except.ok v)))
                rest).baseline = s.baseline
          rw [happ]
          exact hrec
      | error msg =>
        rw [eventsMonotoneFrom] at hm
        have happ : applyEvent s (StepEvent.poll (Except.error msg)) = s := by
          simp [applyEvent, hs, hp, hd]
        have hrec := ih s hs hp hd hm
        show calculatedSteps s ≤
            calculatedSteps
              (applyEvents (applyEvent s (StepEvent.poll (Except.error msg)))
                rest) ∧
          (applyEvents (applyEvent s (StepEvent.poll (Except.error msg)))
              rest).baseline = s.baseline
        rw [happ]
        exact hrec

/-- C3 witness: `C3_effective_steps_monotone` on a live tracking state and a
mixed event sequence with non-decreasing accepted values (10, 20, skip the
non-positive poll, skip the rejected poll, 30). -/
theorem C3_effective_steps_monotone_witness :
    calculatedSteps sampleTrackingState ≤
      calculatedSteps (applyEvents sampleTrackingState
        [StepEvent.push 10, StepEvent.poll (Except.ok 20),
         StepEvent.poll (Except.ok (-5)), StepEvent.poll (Except.error "eIO"),
         StepEvent.push 30]) ∧
    (applyEvents sampleTrackingState
      [StepEvent.push 10, StepEvent.poll (Except.ok 20),
       StepEvent.poll (Except.ok (-5)), StepEvent.poll (Except.error "eIO"),
       StepEvent.push 30]).baseline = sampleTrackingState.baseline :=
  C3_effective_steps_monotone sampleTrackingState
    [StepEvent.push 10, StepEvent.poll (Except.ok 20),
     StepEvent.poll (Except.ok (-5)), StepEvent.poll (Except.error "eIO"),
     StepEvent.push 30] rfl rfl rfl (by decide)

end PokemonSteps
